import Mathlib

/-!
Verification development for the ARM7 toolchain core: a shallow embedding of
the two-pass assembler (`assembler.py`), the disassembler (`disassembler.py`)
and the linker (`linker.py`), together with theorems settling the frozen
claims about their behaviour.

Python strings are modelled as Lean `String`/`List Char`; the unbounded Python integers as `Nat` (or `Int` where the source subtracts); the Python `>>` on a
possibly negative value is `Int.fdiv` by a power of two and `& mask` on such a
value is `Int.emod` by the corresponding power of two.  Exceptions become
`Except String`.
-/

namespace ARM7

/-- Python `str.strip` whitespace class (space and the ASCII escapes). -/
def pyIsSpace (c : Char) : Bool :=
  c == ' ' || c == '\t' || c == '\n' || c == '\r' || c == '\x0b' || c == '\x0c'

def pyStripList (l : List Char) : List Char :=
  ((l.dropWhile pyIsSpace).reverse.dropWhile pyIsSpace).reverse

/-- Python `str.strip()`. -/
def pyStrip (s : String) : String := String.mk (pyStripList s.data)

/-- Python `str.upper()` (ASCII). -/
def pyUpper (s : String) : String := String.mk (s.data.map Char.toUpper)

/-- Python `str.endswith`. -/
def pyEndsWith (s suf : String) : Bool := suf.data.isSuffixOf s.data

/-- Python `str.startswith`. -/
def pyStartsWith (s p : String) : Bool := p.data.isPrefixOf s.data

/-- Value of a list of decimal digit characters, as computed by Python `int`. -/
def decVal (l : List Char) : Nat := l.foldl (fun a c => 10 * a + (c.toNat - 48)) 0

def hexDigitVal (c : Char) : Nat :=
  if c.isDigit then c.toNat - 48
  else if 'a' ≤ c && c ≤ 'f' then c.toNat - 87
  else c.toNat - 55

def hexVal (l : List Char) : Nat := l.foldl (fun a c => 16 * a + hexDigitVal c) 0

def binVal (l : List Char) : Nat := l.foldl (fun a c => 2 * a + (c.toNat - 48)) 0

def isHexChar (c : Char) : Bool :=
  c.isDigit || ('a' ≤ c && c ≤ 'f') || ('A' ≤ c && c ≤ 'F')

def isBinChar (c : Char) : Bool := c == '0' || c == '1'

/-- Separator class of the assembler token split, Python re.split on the class [,\s]+. -/
def isSep (c : Char) : Bool := c == ',' || pyIsSpace c

/-- Worker for `Python re.split on the separator class [,\s]+`: runs of separators split the string,
with an empty piece produced at an end that starts or finishes with a run. -/
def splitReAux : List Char → List Char → Bool → List (List Char)
  | [], cur, _ => [cur.reverse]
  | c :: cs, cur, lastSep =>
    if isSep c then
      if lastSep then splitReAux cs cur true
      else cur.reverse :: splitReAux cs [] true
    else splitReAux cs (c :: cur) false

/-- Python `Python re.split on the separator class [,\s]+`. -/
def splitRe (s : String) : List String := (splitReAux s.data [] false).map String.mk

/-- Python `str.split(sep)` for a single-character separator (no collapsing). -/
def splitOnChar (sep : Char) : List Char → List (List Char)
  | [] => [[]]
  | c :: cs =>
    let r := splitOnChar sep cs
    if c == sep then [] :: r
    else
      match r with
      | [] => [[c]]
      | h :: t => (c :: h) :: t

/-- Python `line[:line.index(c)]` when `c` occurs, else the whole string. -/
def takeUntilChar (c : Char) (s : String) : String :=
  String.mk (s.data.takeWhile (fun x => x != c))

/-- First-match association-list lookup (Python `dict.get`; keys are unique in
every dict the source builds, so first match is the dict entry). -/
def alookup {κ α : Type} [DecidableEq κ] : List (κ × α) → κ → Option α
  | [], _ => none
  | (k', v) :: t, k => if k' = k then some v else alookup t k

/-- Python `d[k] = v`: replace in place when the key exists, else append. -/
def dictSet {κ α : Type} [DecidableEq κ] : List (κ × α) → κ → α → List (κ × α)
  | [], k, v => [(k, v)]
  | (k', v') :: t, k, v => if k' = k then (k, v) :: t else (k', v') :: dictSet t k v

/-! ## Assembler: `ARM7Instruction` encoders and the `Assembler` parsers -/

/-- Model of `ARM7Instruction.encode_data_processing`: note the source never sets the
I bit (bit 25) and ORs `operand2` in unmasked. -/
def encode_data_processing (cond opcode s rn rd operand2 : Nat) : Nat :=
  (cond <<< 28) ||| (0b00 <<< 26) ||| (opcode <<< 21) ||| (s <<< 20) |||
    (rn <<< 16) ||| (rd <<< 12) ||| operand2

/-- Model of `ARM7Instruction.encode_branch`. -/
def encode_branch (cond link offset : Nat) : Nat :=
  (cond <<< 28) ||| (0b101 <<< 25) ||| (link <<< 24) ||| (offset &&& 0xFFFFFF)

/-- Model of `ARM7Instruction.encode_load_store`. -/
def encode_load_store (cond p u b w l rn rd offset : Nat) : Nat :=
  (cond <<< 28) ||| (0b01 <<< 26) ||| (p <<< 24) ||| (u <<< 23) ||| (b <<< 22) |||
    (w <<< 21) ||| (l <<< 20) ||| (rn <<< 16) ||| (rd <<< 12) ||| (offset &&& 0xFFF)

/-- Suffix table of `Assembler.parse_condition`, in source (dict insertion) order. -/
def condMap : List (String × Nat) :=
  [("EQ", 0), ("NE", 1), ("CS", 2), ("CC", 3), ("MI", 4), ("PL", 5), ("VS", 6),
   ("VC", 7), ("HI", 8), ("LS", 9), ("GE", 10), ("LT", 11), ("GT", 12), ("LE", 13)]

/-- Special-name table of `Assembler.parse_register`. -/
def regMap : List (String × Nat) :=
  [("SP", 13), ("LR", 14), ("PC", 15), ("R13", 13), ("R14", 14), ("R15", 15)]

/-- Opcode table of `Assembler.assemble_data_processing`. -/
def opcodeMap : List (String × Nat) :=
  [("AND", 0), ("EOR", 1), ("SUB", 2), ("RSB", 3), ("ADD", 4), ("ADC", 5),
   ("SBC", 6), ("RSC", 7), ("TST", 8), ("TEQ", 9), ("CMP", 10), ("CMN", 11),
   ("ORR", 12), ("MOV", 13), ("BIC", 14), ("MVN", 15)]

/-- Python re.match with pattern R(\d+): the greedy digit group after a leading `R`. -/
def rMatchDigits (l : List Char) : Option (List Char) :=
  match l with
  | 'R' :: rest =>
    let ds := rest.takeWhile Char.isDigit
    if ds.isEmpty then none else some ds
  | _ => none

/-- Model of `Assembler.parse_register`. -/
def parse_register (s : String) : Except String Nat :=
  let r := pyUpper (pyStrip s)
  match alookup regMap r with
  | some n => Except.ok n
  | none =>
    match rMatchDigits r.data with
    | some ds =>
      let n := decVal ds
      if n ≤ 15 then Except.ok n else Except.error ("Invalid register: " ++ r)
    | none => Except.error ("Invalid register: " ++ r)

/-- Model of `Assembler.parse_immediate`.  Python `int()` would additionally accept a
leading minus sign and underscores; negative and underscored literals are
outside the modelled fragment (the spec rules negative literals unsupported)
and are mapped to an error, and the error text abridges the CPython message. -/
def parse_immediate (s : String) : Except String Nat :=
  let t := pyStrip s
  let t := if pyStartsWith t ("#") then String.mk (t.data.drop 1) else t
  if pyStartsWith t ("0x") || pyStartsWith t ("0X") then
    let ds := t.data.drop 2
    if ds.isEmpty || !ds.all isHexChar then Except.error ("invalid literal for int: " ++ t)
    else Except.ok (hexVal ds)
  else if pyStartsWith t ("0b") || pyStartsWith t ("0B") then
    let ds := t.data.drop 2
    if ds.isEmpty || !ds.all isBinChar then Except.error ("invalid literal for int: " ++ t)
    else Except.ok (binVal ds)
  else
    if t.data.isEmpty || !t.data.all Char.isDigit then Except.error ("invalid literal for int: " ++ t)
    else Except.ok (decVal t.data)

/-- Model of `Assembler.parse_condition`: the first table suffix that the uppercased
mnemonic ends with wins, and the base keeps `mnemonic[:-2]`. -/
def parse_condition (mnemonic : String) : String × Nat :=
  match condMap.find? (fun p => pyEndsWith (pyUpper mnemonic) p.1) with
  | some p => (String.mk (mnemonic.data.take (mnemonic.data.length - 2)), p.2)
  | none => (mnemonic, 14)

/-- Python list indexing `ops[i]`, raising `IndexError` past the end. -/
def getOperand (ops : List String) (i : Nat) : Except String String :=
  match ops.get? i with
  | some o => Except.ok o
  | none => Except.error ("list index out of range")

/-- Python `str.isdigit()`. -/
def pyIsdigitStr (s : String) : Bool := !s.data.isEmpty && s.data.all Char.isDigit

/-- The operand-2 snippet repeated in `assemble_data_processing`: an immediate
when the token starts with `#` or is all digits, else a bare register. -/
def parseOperand2 (ops : List String) (i : Nat) : Except String Nat :=
  match getOperand ops i with
  | Except.error e => Except.error e
  | Except.ok o =>
    if pyStartsWith o ("#") || pyIsdigitStr o then parse_immediate o else parse_register o

/-- The data-processing dispatch list of `Assembler.assemble_line`. -/
def dpMnemonics : List String :=
  ["ADD", "SUB", "RSB", "ADC", "SBC", "RSC", "AND", "ORR", "EOR", "BIC",
   "MOV", "MVN", "TST", "TEQ", "CMP", "CMN"]

/-- Model of `Assembler.assemble_data_processing`. -/
def assemble_data_processing (mnemonic : String) (operands : List String)
    (cond s : Nat) : Except String Nat :=
  let opcode := (alookup opcodeMap mnemonic).getD 0
  if mnemonic = "MOV" ∨ mnemonic = "MVN" then
    match (getOperand operands 0).bind parse_register with
    | Except.error e => Except.error e
    | Except.ok rd =>
      match parseOperand2 operands 1 with
      | Except.error e => Except.error e
      | Except.ok operand2 => Except.ok (encode_data_processing cond opcode s 0 rd operand2)
  else if mnemonic = "CMP" ∨ mnemonic = "CMN" ∨ mnemonic = "TST" ∨ mnemonic = "TEQ" then
    match (getOperand operands 0).bind parse_register with
    | Except.error e => Except.error e
    | Except.ok rn =>
      match parseOperand2 operands 1 with
      | Except.error e => Except.error e
      | Except.ok operand2 => Except.ok (encode_data_processing cond opcode 1 rn 0 operand2)
  else
    match (getOperand operands 0).bind parse_register with
    | Except.error e => Except.error e
    | Except.ok rd =>
      match (getOperand operands 1).bind parse_register with
      | Except.error e => Except.error e
      | Except.ok rn =>
        match parseOperand2 operands 2 with
        | Except.error e => Except.error e
        | Except.ok operand2 => Except.ok (encode_data_processing cond opcode s rn rd operand2)

/-- Model of `Assembler.assemble_branch`: the Python arithmetic shift on the possibly
negative distance is `Int.fdiv` by 4 and the `& 0xFFFFFF` is `emod 2^24`. -/
def assemble_branch (symtab : List (String × Nat)) (mnemonic : String)
    (operands : List String) (cond currentAddr : Nat) : Except String Nat :=
  let link := if mnemonic = "BL" then 1 else 0
  match getOperand operands 0 with
  | Except.error e => Except.error e
  | Except.ok targetLabel =>
    match alookup symtab targetLabel with
    | none => Except.ok (encode_branch cond link 0)
    | some targetAddr =>
      Except.ok (encode_branch cond link
        ((((targetAddr : Int) - (currentAddr : Int) - 8).fdiv 4).emod (2 ^ 24)).toNat)

/-- Model of `Assembler.assemble_load_store`: joins the remaining comma/space-split
tokens with spaces, removes brackets, then splits on commas. -/
def assemble_load_store (mnemonic : String) (operands : List String)
    (cond : Nat) : Except String Nat :=
  let l := if mnemonic = "LDR" ∨ mnemonic = "LDRB" then 1 else 0
  let b := if mnemonic = "LDRB" ∨ mnemonic = "STRB" then 1 else 0
  match getOperand operands 0 with
  | Except.error e => Except.error e
  | Except.ok o0 =>
    match parse_register o0 with
    | Except.error e => Except.error e
    | Except.ok rd =>
      let addrChars := (List.intercalate [' '] ((operands.drop 1).map String.data)).filter
        (fun c => c != '[' && c != ']')
      match splitOnChar ',' addrChars with
      | [] => Except.error ("list index out of range")
      | p :: rest =>
        match parse_register (String.mk p) with
        | Except.error e => Except.error e
        | Except.ok rn =>
          let offE := match rest with
            | [] => Except.ok 0
            | q :: _ => parse_immediate (String.mk q)
          match offE with
          | Except.error e => Except.error e
          | Except.ok offset => Except.ok (encode_load_store cond 1 1 b 0 l rn rd offset)

/-- Model of `Assembler.assemble_line`: comment stripping, tokenizing, mnemonic
decomposition and dispatch.  Returns the optional emitted word and the error
messages this line appends to `self.errors`. -/
def assemble_line (symtab : List (String × Nat)) (line : String)
    (address : Nat) : Option Nat × List String :=
  let line := pyStrip (takeUntilChar ';' line)
  if line.data.isEmpty then (none, [])
  else
    let parts := splitRe line
    let mnemonic := pyUpper (parts.headD (""))
    let pc := parse_condition mnemonic
    let cond := pc.2
    let sFlag := if pyEndsWith pc.1 ("S") then 1 else 0
    let base := if pyEndsWith pc.1 ("S") then String.mk (pc.1.data.take (pc.1.data.length - 1)) else pc.1
    let res :=
      if base ∈ dpMnemonics then some (assemble_data_processing base (parts.drop 1) cond sFlag)
      else if base = "B" ∨ base = "BL" then
        some (assemble_branch symtab base (parts.drop 1) cond address)
      else if base = "LDR" ∨ base = "STR" ∨ base = "LDRB" ∨ base = "STRB" then
        some (assemble_load_store base (parts.drop 1) cond)
      else none
    match res with
    | some (Except.ok w) => (some w, [])
    | some (Except.error e) => (some 0, ["Error assembling " ++ line ++ ": " ++ e])
    | none => (some 0, ["Unknown instruction: " ++ mnemonic])

/-- Pass 1 of `Assembler.assemble`: builds the symbol table and the
`(address, line)` list.  `SymbolTable.add` raises `ValueError` on a duplicate
label and `assemble` does not catch it, so pass 1 aborts there. -/
def pass1 : List String → Nat → List (String × Nat) → List (Nat × String) →
    Except String (List (String × Nat) × List (Nat × String))
  | [], _, symtab, instrs => Except.ok (symtab, instrs)
  | l :: ls, address, symtab, instrs =>
    let line := pyStrip (takeUntilChar ';' l)
    if line.data.isEmpty then pass1 ls address symtab instrs
    else if pyStartsWith line (".") then pass1 ls address symtab instrs
    else if line.data.contains ':' then
      let label := pyStrip (String.mk (line.data.takeWhile (fun c => c != ':')))
      let rest := pyStrip (String.mk ((line.data.dropWhile (fun c => c != ':')).drop 1))
      if (alookup symtab label).isSome then Except.error ("Duplicate label: " ++ label)
      else if rest.data.isEmpty then pass1 ls address (symtab ++ [(label, address)]) instrs
      else pass1 ls (address + 4) (symtab ++ [(label, address)]) (instrs ++ [(address, rest)])
    else pass1 ls (address + 4) symtab (instrs ++ [(address, line)])

/-- Pass 2 of `Assembler.assemble`: machine code and accumulated errors. -/
def pass2 (symtab : List (String × Nat)) (instrs : List (Nat × String)) :
    List Nat × List String :=
  instrs.foldl (fun acc p =>
    match assemble_line symtab p.2 p.1 with
    | (some w, errs) => (acc.1 ++ [w], acc.2 ++ errs)
    | (none, errs) => (acc.1, acc.2 ++ errs)) ([], [])

/-- Model of `Assembler.assemble`: two passes; an uncaught duplicate-label error aborts. -/
def assemble (lines : List String) : Except String (List Nat × List String) :=
  match pass1 lines 0 [] [] with
  | Except.error e => Except.error e
  | Except.ok st => Except.ok (pass2 st.1 st.2)

/-! ## Disassembler: `ARM7Disassembler` -/

/-- Model of `ARM7Disassembler.COND_CODES`. -/
def condTable : List (Nat × String) :=
  [(0, "EQ"), (1, "NE"), (2, "CS"), (3, "CC"), (4, "MI"), (5, "PL"), (6, "VS"),
   (7, "VC"), (8, "HI"), (9, "LS"), (10, "GE"), (11, "LT"), (12, "GT"),
   (13, "LE"), (14, ""), (15, "NV")]

/-- Model of `ARM7Disassembler.DP_OPCODES`. -/
def dpOpTable : List (Nat × String) :=
  [(0, "AND"), (1, "EOR"), (2, "SUB"), (3, "RSB"), (4, "ADD"), (5, "ADC"),
   (6, "SBC"), (7, "RSC"), (8, "TST"), (9, "TEQ"), (10, "CMP"), (11, "CMN"),
   (12, "ORR"), (13, "MOV"), (14, "BIC"), (15, "MVN")]

/-- Model of `ARM7Disassembler.SHIFT_TYPES`. -/
def shiftTable : List (Nat × String) :=
  [(0, "LSL"), (1, "LSR"), (2, "ASR"), (3, "ROR")]

def hexChar (n : Nat) : Char :=
  if n < 10 then Char.ofNat (48 + n) else Char.ofNat (55 + n)

/-- Uppercase hexadecimal digits of `n`, most significant first. -/
def hexDigits (n : Nat) : List Char :=
  if n < 16 then [hexChar n] else hexDigits (n / 16) ++ [hexChar (n % 16)]
termination_by n
decreasing_by exact Nat.div_lt_self (by omega) (by omega)

/-- Python `f-string` format `X` (uppercase hex, no padding). -/
def toHexUpper (n : Nat) : String := String.mk (hexDigits n)

/-- Python `f-string` format `08X` (uppercase hex, zero-padded to 8 digits). -/
def toHexPad8 (n : Nat) : String :=
  let ds := hexDigits n
  String.mk (List.replicate (8 - ds.length) '0' ++ ds)

/-- Model of `ARM7Disassembler.rotate_right` (32-bit rotate built from shifts). -/
def rotate_right (value amount : Nat) : Nat :=
  let amount := amount % 32
  ((value >>> amount) ||| (value <<< (32 - amount))) &&& 0xFFFFFFFF

/-- Model of `ARM7Disassembler.sign_extend_24`: returns the unsigned 32-bit pattern. -/
def sign_extend_24 (value : Nat) : Nat :=
  if value &&& 0x800000 ≠ 0 then value ||| 0xFF000000 else value

/-- Model of `ARM7Disassembler.disasm_data_processing`. -/
def disasm_data_processing (instr : Nat) (cond : String) : String :=
  let opcode := (instr >>> 21) &&& 0xF
  let s_bit := (instr >>> 20) &&& 1
  let rn := (instr >>> 16) &&& 0xF
  let rd := (instr >>> 12) &&& 0xF
  let imm_flag := (instr >>> 25) &&& 1
  let mnemonic := (alookup dpOpTable opcode).getD ("UNK")
  let s_suffix := if s_bit ≠ 0 then "S" else ""
  let is_test := opcode = 8 ∨ opcode = 9 ∨ opcode = 10 ∨ opcode = 11
  let is_move := opcode = 13 ∨ opcode = 15
  let result := mnemonic ++ cond ++ s_suffix
  let result := if is_test then result else result ++ " R" ++ toString rd ++ ","
  let result := if is_move then result else result ++ " R" ++ toString rn ++ ","
  if imm_flag ≠ 0 then
    let imm8 := instr &&& 0xFF
    let rotate := ((instr >>> 8) &&& 0xF) * 2
    result ++ " #0x" ++ toHexUpper (rotate_right imm8 rotate)
  else
    let rm := instr &&& 0xF
    let shift_type := (instr >>> 5) &&& 0x3
    let shift_imm := (instr >>> 7) &&& 0x1F
    let result := result ++ " R" ++ toString rm
    if shift_imm ≠ 0 then
      result ++ ", " ++ ((alookup shiftTable shift_type).getD ("")) ++ " #" ++ toString shift_imm
    else result

/-- Model of `ARM7Disassembler.disasm_multiply`. -/
def disasm_multiply (instr : Nat) (cond : String) : String :=
  let rd := (instr >>> 16) &&& 0xF
  let rs := (instr >>> 8) &&& 0xF
  let rm := instr &&& 0xF
  "MUL" ++ cond ++ " R" ++ toString rd ++ ", R" ++ toString rm ++ ", R" ++ toString rs

/-- Model of `ARM7Disassembler.disasm_load_store`. -/
def disasm_load_store (instr : Nat) (cond : String) : String :=
  let is_load := (instr >>> 20) &&& 1
  let is_byte := (instr >>> 22) &&& 1
  let rn := (instr >>> 16) &&& 0xF
  let rd := (instr >>> 12) &&& 0xF
  let mnemonic := if is_load ≠ 0 then "LDR" else "STR"
  let mnemonic := if is_byte ≠ 0 then mnemonic ++ "B" else mnemonic
  let offset := instr &&& 0xFFF
  mnemonic ++ cond ++ " R" ++ toString rd ++ ", [R" ++ toString rn ++ ", #0x" ++
    toHexUpper offset ++ "]"

/-- Model of `ARM7Disassembler.disasm_ldm_stm`. -/
def disasm_ldm_stm (instr : Nat) (cond : String) : String :=
  let is_load := (instr >>> 20) &&& 1
  let rn := (instr >>> 16) &&& 0xF
  let reg_list := instr &&& 0xFFFF
  let mnemonic := if is_load ≠ 0 then "LDM" else "STM"
  let regs := (List.range 16).filterMap
    (fun i => if reg_list &&& (1 <<< i) ≠ 0 then some ("R" ++ toString i) else none)
  mnemonic ++ cond ++ " R" ++ toString rn ++ ", " ++
    ("\x7b" ++ String.intercalate (", ") regs ++ "\x7d")

/-- The `target` computed inside `ARM7Disassembler.disasm_branch`:
`addr + 8 + (sign_extend_24(offset) << 2)` on unbounded Python integers,
after the in-line `offset |= 0xFF000000` sign extension. -/
def disasm_branch_target (instr addr : Nat) : Nat :=
  let offset := instr &&& 0xFFFFFF
  let offset := if offset &&& 0x800000 ≠ 0 then offset ||| 0xFF000000 else offset
  addr + 8 + (sign_extend_24 offset <<< 2)

/-- Model of `ARM7Disassembler.disasm_branch`. -/
def disasm_branch (symbols : List (Nat × String)) (instr : Nat) (cond : String)
    (addr : Nat) : String :=
  let is_link := (instr >>> 24) &&& 1
  let target := disasm_branch_target instr addr
  let mnemonic := if is_link ≠ 0 then "BL" else "B"
  match alookup symbols target with
  | some name => mnemonic ++ cond ++ " " ++ name
  | none => mnemonic ++ cond ++ " 0x" ++ toHexPad8 target

/-- Model of `ARM7Disassembler.disasm_swi`. -/
def disasm_swi (instr : Nat) (cond : String) : String :=
  "SWI" ++ cond ++ " 0x" ++ toHexUpper (instr &&& 0xFFFFFF)

/-- Model of `ARM7Disassembler.disassemble_instruction`: the ordered classifier. -/
def disassemble_instruction (symbols : List (Nat × String)) (instr addr : Nat) : String :=
  let cond := (instr >>> 28) &&& 0xF
  let cond_str := (alookup condTable cond).getD ("??")
  if instr &&& 0x0C000000 = 0 then
    if instr &&& 0x0FC000F0 = 0x00000090 then disasm_multiply instr cond_str
    else disasm_data_processing instr cond_str
  else if instr &&& 0x0C000000 = 0x04000000 then disasm_load_store instr cond_str
  else if instr &&& 0x0E000000 = 0x08000000 then disasm_ldm_stm instr cond_str
  else if instr &&& 0x0E000000 = 0x0A000000 then disasm_branch symbols instr cond_str addr
  else if instr &&& 0x0F000000 = 0x0F000000 then disasm_swi instr cond_str
  else "UNKNOWN  0x" ++ toHexPad8 instr

/-! ## Linker: `linker.py` data model and stages

Object files are modelled structurally (the text reader `parse_object_file`
is front-end I/O); sections carry their byte list and base address, and the
linker state holds the merged sections, the global symbol table and the
per-object relocations whose offsets `merge_sections` mutates in place. -/

structure Symbol where
  name : String
  value : Nat
  sect : String
  is_global : Bool
  resolved_addr : Option Nat
deriving DecidableEq

structure Reloc where
  offset : Nat
  symbol : String
  rel_type : String
  sect : String
deriving DecidableEq

structure Sect where
  data : List Nat
  base_addr : Nat
deriving DecidableEq

structure ObjFile where
  filename : String
  sections : List (String × List Nat)
  symbols : List (String × Symbol)
  relocations : List Reloc
deriving DecidableEq

structure LState where
  sections : List (String × Sect)
  globals : List (String × Symbol)
  relocs : List (String × Reloc)
deriving DecidableEq

/-- Model of `Linker.__init__`: the three canonical sections, empty, at base 0. -/
def initLState : LState :=
  ⟨[(".text", ⟨[], 0⟩), (".data", ⟨[], 0⟩), (".bss", ⟨[], 0⟩)], [], []⟩

/-- The key under which `merge_sections` files a symbol: globals by name,
locals prefixed by their object filename. -/
def symKey (filename name : String) (isGlobal : Bool) : String :=
  if isGlobal then name else filename ++ ":" ++ name

/-- One iteration of the section loop of `Linker.merge_sections`: create the
merged section if absent, append the data, file the matching symbols of the object
with the pre-append length added to their values, and adjust the offsets of
the matching relocations of the object likewise. -/
def mergeOneSection (filename : String) (osymbols : List (String × Symbol))
    (acc : LState × List Reloc) (sec : String × List Nat) : LState × List Reloc :=
  let st := acc.1
  let orelocs := acc.2
  let sections0 :=
    if (alookup st.sections sec.1).isSome then st.sections
    else st.sections ++ [(sec.1, ⟨[], 0⟩)]
  let cur := (alookup sections0 sec.1).getD ⟨[], 0⟩
  let off := cur.data.length
  let sections1 := dictSet sections0 sec.1 ⟨cur.data ++ sec.2, cur.base_addr⟩
  let globals1 := osymbols.foldl (fun g p =>
      if p.2.sect = sec.1 then
        dictSet g (symKey filename p.1 p.2.is_global)
          ⟨p.1, p.2.value + off, sec.1, p.2.is_global, none⟩
      else g) st.globals
  let orelocs1 := orelocs.map
    (fun r => if r.sect = sec.1 then { r with offset := r.offset + off } else r)
  ({ st with sections := sections1, globals := globals1 }, orelocs1)

/-- The per-object body of `Linker.merge_sections`. -/
def mergeObj (st : LState) (obj : ObjFile) : LState :=
  let r := obj.sections.foldl (mergeOneSection obj.filename obj.symbols) (st, obj.relocations)
  { r.1 with relocs := r.1.relocs ++ r.2.map (fun rl => (obj.filename, rl)) }

/-- Model of `Linker.merge_sections` over the object list. -/
def merge_sections (objs : List ObjFile) : LState := objs.foldl mergeObj initLState

/-- The default memory layout of `Linker.__init__`. -/
def defaultLayout : List (String × Nat) :=
  [(".text", 0x00000000), (".data", 0x00010000), (".bss", 0x00020000)]

/-- The per-entry body of the base-address loop in `Linker.assign_addresses`. -/
def assignStep (secs : List (String × Sect)) (p : String × Nat) : List (String × Sect) :=
  match alookup secs p.1 with
  | some s => dictSet secs p.1 ⟨s.data, p.2⟩
  | none => secs

/-- Model of `Linker.assign_addresses`: set the base of each configured section, then
resolve every symbol whose section exists to `base + value`. -/
def assign_addresses (layout : List (String × Nat)) (st : LState) : LState :=
  let sections := layout.foldl assignStep st.sections
  let globals := st.globals.map (fun p =>
      match alookup sections p.2.sect with
      | some s => (p.1, { p.2 with resolved_addr := some (s.base_addr + p.2.value) })
      | none => p)
  { st with sections := sections, globals := globals }

/-- The symbol lookup of `Linker.apply_relocations`: bare name first, then the
filename-prefixed local form. -/
def resolveSym (st : LState) (filename name : String) : Option Symbol :=
  match alookup st.globals name with
  | some s => some s
  | none => alookup st.globals (filename ++ ":" ++ name)

/-- Model of struct.pack rendering `w` as a little-endian 32-bit byte list. -/
def word_bytes (w : Nat) : List Nat :=
  [w &&& 0xFF, (w >>> 8) &&& 0xFF, (w >>> 16) &&& 0xFF, (w >>> 24) &&& 0xFF]

/-- Model of struct.unpack reading a little-endian 32-bit word at `o` (defined when `o + 4 ≤ data.length`). -/
def read_word (data : List Nat) (o : Nat) : Nat :=
  data.getD o 0 + 256 * data.getD (o + 1) 0 + 65536 * data.getD (o + 2) 0 +
    16777216 * data.getD (o + 3) 0

/-- Python slice assignment `data[o:o+len(repl)] = repl` (in-range form). -/
def splice (data : List Nat) (o : Nat) (repl : List Nat) : List Nat :=
  data.take o ++ repl ++ data.drop (o + repl.length)

/-- The loop body of `Linker.apply_relocations` for one relocation.  An
unresolved symbol or missing section is skipped as in the source; a symbol
whose `resolved_addr` is still `None` makes the source raise an uncaught
`TypeError`, modelled as a no-op and unreachable under the resolved-target
hypotheses used below. -/
def applyOneReloc (st : LState) (fr : String × Reloc) : LState :=
  match resolveSym st fr.1 fr.2.symbol with
  | none => st
  | some symbol =>
    match alookup st.sections fr.2.sect with
    | none => st
    | some sct =>
      if fr.2.rel_type = "abs32" then
        match symbol.resolved_addr with
        | none => st
        | some addr =>
          let newSect : Sect := ⟨splice sct.data fr.2.offset (word_bytes addr), sct.base_addr⟩
          { st with sections := dictSet st.sections fr.2.sect newSect }
      else if fr.2.rel_type = "rel24" then
        match symbol.resolved_addr with
        | none => st
        | some target_addr =>
          let current_addr := sct.base_addr + fr.2.offset
          let offw := ((target_addr : Int) - (current_addr : Int) - 8).fdiv 4
          let instr := read_word sct.data fr.2.offset
          let instr2 := (instr &&& 0xFF000000) ||| (offw.emod (2 ^ 24)).toNat
          let newSect : Sect := ⟨splice sct.data fr.2.offset (word_bytes instr2), sct.base_addr⟩
          { st with sections := dictSet st.sections fr.2.sect newSect }
      else st

/-- Model of `Linker.apply_relocations` over the merged relocation list. -/
def apply_relocations (st : LState) : LState := st.relocs.foldl applyOneReloc st

/-- The linking pipeline of `Linker.link` up to and including relocation. -/
def link_process (layout : List (String × Nat)) (objs : List ObjFile) : LState :=
  apply_relocations (assign_addresses layout (merge_sections objs))

/-- The merged data of all sections of one object bearing one name. -/
def sectionContrib (secs : List (String × List Nat)) (n : String) : List Nat :=
  ((secs.filter (fun p => p.1 = n)).map Prod.snd).join

/-- The symbol-filing fold inside `mergeOneSection`. -/
def symFold (fn sname : String) (off : Nat) (g : List (String × Symbol))
    (os : List (String × Symbol)) : List (String × Symbol) :=
  os.foldl (fun g p =>
    if p.2.sect = sname then
      dictSet g (symKey fn p.1 p.2.is_global) ⟨p.1, p.2.value + off, sname, p.2.is_global, none⟩
    else g) g

/-- Object A of the two-object merge scenario: 4 bytes of `.text`. -/
def c8ObjA : ObjFile := ObjFile.mk ("a.o") [((".text"), [1, 2, 3, 4])] [] []

/-- Object B of the two-object merge scenario: `.text`, `.data` and a global symbol. -/
def c8ObjB : ObjFile :=
  ObjFile.mk ("b.o") [((".text"), [5, 6, 7, 8]), ((".data"), [9])]
    [(("main"), Symbol.mk ("main") 0 (".text") true none)] []

/-- Object A of the rel24 scenario: 8 bytes of `.text` (first word 0xEB000000) and a
`RELOC 0 main rel24 .text` entry. -/
def c9ObjA : ObjFile :=
  ObjFile.mk ("a.o") [((".text"), [0, 0, 0, 235, 0, 0, 0, 0])] []
    [Reloc.mk 0 ("main") ("rel24") (".text")]

/-- Object B of the rel24 scenario: 8 bytes of `.text` defining global `main` at value 0. -/
def c9ObjB : ObjFile :=
  ObjFile.mk ("b.o") [((".text"), [1, 2, 3, 4, 5, 6, 7, 8])]
    [(("main"), Symbol.mk ("main") 0 (".text") true none)] []

/-- The linker state of the rel24 scenario after merging and address assignment. -/
def c9State : LState := assign_addresses defaultLayout (merge_sections [c9ObjA, c9ObjB])

/-- The relocation of the rel24 scenario (its offset is unchanged by the merge). -/
def c9Reloc : Reloc := Reloc.mk 0 ("main") ("rel24") (".text")

/-! ## Helper lemmas -/

theorem alookup_dictSet_self {κ α : Type} [DecidableEq κ] (l : List (κ × α)) (k : κ) (v : α) :
    alookup (dictSet l k v) k = some v := by
  induction l with
  | nil => simp [dictSet, alookup]
  | cons p t ih =>
    by_cases h : p.1 = k
    · obtain ⟨p1, p2⟩ := p
      simp only [dictSet, alookup]
      rw [if_pos h, alookup, if_pos rfl]
    · obtain ⟨p1, p2⟩ := p
      simp only [dictSet, alookup]
      rw [if_neg h, alookup, if_neg h]
      exact ih


theorem alookup_dictSet_ne {κ α : Type} [DecidableEq κ] (l : List (κ × α)) (k k' : κ) (v : α)
    (h : k' ≠ k) : alookup (dictSet l k v) k' = alookup l k' := by
  induction l with
  | nil =>
    simp only [dictSet, alookup]
    rw [if_neg (fun hh => h hh.symm)]
  | cons p t ih =>
    obtain ⟨p1, p2⟩ := p
    by_cases hp : p1 = k
    · simp only [dictSet]
      rw [if_pos hp, alookup, alookup, if_neg (fun hh => h hh.symm), if_neg]
      rw [hp]
      exact fun hh => h hh.symm
    · simp only [dictSet]
      rw [if_neg hp, alookup, alookup]
      by_cases hq : p1 = k'
      · rw [if_pos hq, if_pos hq]
      · rw [if_neg hq, if_neg hq]
        exact ih


theorem alookup_append_single_ne {κ α : Type} [DecidableEq κ] (l : List (κ × α)) (k k' : κ)
    (v : α) (h : k' ≠ k) : alookup (l ++ [(k, v)]) k' = alookup l k' := by
  induction l with
  | nil =>
    simp only [List.nil_append, alookup]
    rw [if_neg (fun hh => h hh.symm)]
  | cons p t ih =>
    obtain ⟨p1, p2⟩ := p
    simp only [List.cons_append, alookup]
    by_cases hq : p1 = k'
    · rw [if_pos hq, if_pos hq]
    · rw [if_neg hq, if_neg hq]
      exact ih

/-- The merged data of all sections of one object bearing one name. -/


theorem regMap_bound : ∀ (k : String) (m : Nat), alookup regMap k = some m → m ≤ 15 := by
  intro k m h
  simp only [regMap, alookup] at h
  repeat' split at h
  all_goals first | (simp only [Option.some.injEq] at h; omega) | simp at h


theorem and_255_eq_mod (y : Nat) : y &&& 0xFF = y % 256 :=
  Nat.and_pow_two_sub_one_eq_mod y 8


theorem word_recompose (w : Nat) (h : w < 2 ^ 32) :
    (w &&& 0xFF) + 256 * ((w >>> 8) &&& 0xFF) + 65536 * ((w >>> 16) &&& 0xFF) +
      16777216 * ((w >>> 24) &&& 0xFF) = w := by
  rw [and_255_eq_mod, and_255_eq_mod, and_255_eq_mod, and_255_eq_mod,
    Nat.shiftRight_eq_div_pow, Nat.shiftRight_eq_div_pow, Nat.shiftRight_eq_div_pow]
  have h32 : w < 4294967296 := by norm_num at h; omega
  norm_num
  omega


theorem read_word_lt (data : List Nat) (o : Nat) (hb : ∀ x ∈ data, x < 256) :
    read_word data o < 2 ^ 32 := by
  have hg : ∀ i : Nat, (data[i]?).getD 0 ≤ 255 := by
    intro i
    cases hq : data[i]? with
    | none => simp [hq]
    | some x =>
      have hm := hb x (List.getElem?_mem hq)
      simp [hq]
      omega
  have h0 := hg o
  have h1 := hg (o + 1)
  have h2 := hg (o + 2)
  have h3 := hg (o + 3)
  unfold read_word
  simp only [List.getD]
  norm_num
  omega


theorem splice_get?_lt (data : List Nat) (o : Nat) (repl : List Nat) (i : Nat)
    (hio : i < o) (ho : o ≤ data.length) : (splice data o repl).get? i = data.get? i := by
  unfold splice
  rw [List.get?_append, List.get?_append, List.get?_take hio]
  · rw [List.length_take]
    omega
  · rw [List.length_append, List.length_take]
    omega


theorem splice_get?_ge (data : List Nat) (o : Nat) (repl : List Nat) (i : Nat)
    (hi : o + repl.length ≤ i) (ho : o ≤ data.length) :
    (splice data o repl).get? i = data.get? i := by
  unfold splice
  have hto : (List.take o data).length = o := by rw [List.length_take]; omega
  have h1 : (List.take o data).length ≤ i := by rw [hto]; omega
  rw [List.append_assoc, List.get?_append_right h1]
  have h2 : repl.length ≤ i - (List.take o data).length := by rw [hto]; omega
  rw [List.get?_append_right h2, List.get?_drop]
  congr 1
  rw [hto]
  omega


theorem splice_get?_mid (data : List Nat) (o : Nat) (repl : List Nat) (k : Nat)
    (hk : k < repl.length) (ho : o ≤ data.length) :
    (splice data o repl).get? (o + k) = repl.get? k := by
  unfold splice
  rw [List.append_assoc, List.get?_append_right, List.get?_append]
  · congr 1
    rw [List.length_take]
    omega
  · rw [List.length_take]
    omega
  · rw [List.length_take]
    omega


theorem lor_hi_and_mask (x y : Nat) (hy : y < 2 ^ 24) :
    ((x &&& 0xFF000000) ||| y) &&& 0xFFFFFF = y := by
  rw [Nat.and_distrib_right, Nat.land_assoc]
  have h1 : (0xFF000000 : Nat) &&& 0xFFFFFF = 0 := by decide
  rw [h1, Nat.and_zero, Nat.zero_or]
  exact Nat.and_pow_two_sub_one_of_lt_two_pow hy


theorem lor_hi_shift (x y : Nat) (hy : y < 2 ^ 24) (hx : x < 2 ^ 32) :
    ((x &&& 0xFF000000) ||| y) >>> 24 = x >>> 24 := by
  have hC : (0xFF000000 : Nat) = (2 ^ 8 - 1) <<< 24 := by decide
  rw [hC]
  apply Nat.eq_of_testBit_eq
  intro i
  simp only [Nat.testBit_shiftRight, Nat.testBit_or, Nat.testBit_and,
    Nat.testBit_shiftLeft, Nat.testBit_two_pow_sub_one]
  have hyb : y.testBit (24 + i) = false :=
    Nat.testBit_eq_false_of_lt (lt_of_lt_of_le hy (Nat.pow_le_pow_right (by omega) (by omega)))
  rw [hyb]
  by_cases hi : i < 8
  · have h8 : 24 + i - 24 < 8 := by omega
    simp [h8]
    exact fun _ => hi
  · have hxb : x.testBit (24 + i) = false :=
      Nat.testBit_eq_false_of_lt (lt_of_lt_of_le hx (Nat.pow_le_pow_right (by omega) (by omega)))
    have h8 : ¬(24 + i - 24 < 8) := by omega
    simp [hxb, h8]


theorem read_word_splice (data : List Nat) (o w : Nat) (h : o + 4 ≤ data.length)
    (hw : w < 2 ^ 32) : read_word (splice data o (word_bytes w)) o = w := by
  have ho : o ≤ data.length := by omega
  have e0 : (splice data o (word_bytes w)).get? o = some (w &&& 0xFF) := by
    have := splice_get?_mid data o (word_bytes w) 0 (by simp [word_bytes]) ho
    simpa [word_bytes] using this
  have e1 : (splice data o (word_bytes w)).get? (o + 1) = some ((w >>> 8) &&& 0xFF) :=
    splice_get?_mid data o (word_bytes w) 1 (by simp [word_bytes]) ho
  have e2 : (splice data o (word_bytes w)).get? (o + 2) = some ((w >>> 16) &&& 0xFF) :=
    splice_get?_mid data o (word_bytes w) 2 (by simp [word_bytes]) ho
  have e3 : (splice data o (word_bytes w)).get? (o + 3) = some ((w >>> 24) &&& 0xFF) :=
    splice_get?_mid data o (word_bytes w) 3 (by simp [word_bytes]) ho
  unfold read_word
  simp only [List.getD]
  rw [e0, e1, e2, e3]
  simp only [Option.getD_some]
  exact word_recompose w hw


theorem emod_toNat_lt (q : Int) : (q.emod (2 ^ 24)).toNat < 2 ^ 24 := by
  have h1 : 0 ≤ q.emod (2 ^ 24) := Int.emod_nonneg q (by norm_num)
  have h2 : q.emod (2 ^ 24) < 2 ^ 24 := Int.emod_lt_of_pos q (by norm_num)
  omega


theorem applyOneReloc_rel24_sections (st : LState) (fn : String) (r : Reloc) (sym : Symbol) (sct : Sect)
    (target : Nat)
    (hty : r.rel_type = "rel24")
    (hsym : resolveSym st fn r.symbol = some sym)
    (hres : sym.resolved_addr = some target)
    (hsec : alookup st.sections r.sect = some sct) :
    (applyOneReloc st (fn, r)).sections = dictSet st.sections r.sect
      (Sect.mk
        (splice sct.data r.offset (word_bytes ((read_word sct.data r.offset &&& 0xFF000000) |||
          ((((target : Int) - ((sct.base_addr + r.offset : Nat) : Int) - 8).fdiv 4).emod (2 ^ 24)).toNat)))
        sct.base_addr) := by
  simp only [applyOneReloc, hsym, hsec, hres, hty]
  simp


theorem mergeOneSection_sections_same (fn : String) (os : List (String × Symbol))
    (acc : LState × List Reloc) (sname : String) (sdata : List Nat)
    (d : List Nat) (b : Nat) (h : alookup acc.1.sections sname = some (Sect.mk d b)) :
    alookup ((mergeOneSection fn os acc (sname, sdata)).1).sections sname =
      some (Sect.mk (d ++ sdata) b) := by
  simp only [mergeOneSection, h, Option.isSome_some, if_pos, Option.getD_some]
  exact alookup_dictSet_self _ _ _


theorem mergeOneSection_sections_ne (fn : String) (os : List (String × Symbol))
    (acc : LState × List Reloc) (sname : String) (sdata : List Nat)
    (n : String) (h : n ≠ sname) :
    alookup ((mergeOneSection fn os acc (sname, sdata)).1).sections n =
      alookup acc.1.sections n := by
  simp only [mergeOneSection]
  rw [alookup_dictSet_ne _ _ _ _ h]
  by_cases hp : (alookup acc.1.sections sname).isSome
  · rw [if_pos hp]
  · rw [if_neg hp, alookup_append_single_ne _ _ _ _ h]


theorem foldMerge_sections_ne (fn : String) (os : List (String × Symbol)) (n : String) :
    ∀ (secs : List (String × List Nat)) (acc : LState × List Reloc),
      (∀ p ∈ secs, p.1 ≠ n) →
      alookup ((secs.foldl (mergeOneSection fn os) acc).1).sections n =
        alookup acc.1.sections n := by
  intro secs
  induction secs with
  | nil => intro acc _; rfl
  | cons p t ih =>
    intro acc hne
    obtain ⟨s1, d1⟩ := p
    rw [List.foldl_cons, ih _ (fun q hq => hne q (List.mem_cons_of_mem _ hq))]
    exact mergeOneSection_sections_ne fn os acc s1 d1 n
      (fun hh => hne (s1, d1) (List.mem_cons_self _ _) hh.symm)


theorem foldMerge_sections_same (fn : String) (os : List (String × Symbol)) (n : String) :
    ∀ (secs : List (String × List Nat)) (acc : LState × List Reloc) (d : List Nat) (b : Nat),
      alookup acc.1.sections n = some (Sect.mk d b) →
      alookup ((secs.foldl (mergeOneSection fn os) acc).1).sections n =
        some (Sect.mk (d ++ sectionContrib secs n) b) := by
  intro secs
  induction secs with
  | nil => intro acc d b h; simpa [sectionContrib] using h
  | cons p t ih =>
    intro acc d b h
    obtain ⟨s1, d1⟩ := p
    rw [List.foldl_cons]
    by_cases hs : s1 = n
    · subst hs
      have hstep := mergeOneSection_sections_same fn os acc s1 d1 d b h
      rw [ih _ _ _ hstep]
      simp [sectionContrib, List.append_assoc]
    · have hstep := mergeOneSection_sections_ne fn os acc s1 d1 n (fun hh => hs hh.symm)
      rw [ih _ _ _ (hstep.trans h)]
      have : sectionContrib ((s1, d1) :: t) n = sectionContrib t n := by
        simp [sectionContrib, List.filter_cons, hs]
      rw [this]


theorem sectionContrib_nodup (secs : List (String × List Nat)) (n : String)
    (h : (secs.map Prod.fst).Nodup) :
    sectionContrib secs n = (alookup secs n).getD [] := by
  induction secs with
  | nil => simp [sectionContrib, alookup]
  | cons p t ih =>
    obtain ⟨s1, d1⟩ := p
    simp only [List.map_cons, List.nodup_cons] at h
    by_cases hs : s1 = n
    · subst hs
      have hrest : ∀ q ∈ t, q.1 ≠ s1 := by
        intro q hq heq
        exact h.1 (heq ▸ List.mem_map_of_mem Prod.fst hq)
      have hfil : t.filter (fun p => p.1 = s1) = [] := by
        apply List.filter_eq_nil.mpr
        intro q hq
        simp [hrest q hq]
      simp [sectionContrib, List.filter_cons, hfil, alookup]
    · have := ih h.2
      simp only [sectionContrib, List.filter_cons] at *
      simp only [alookup]
      rw [if_neg hs]
      simp only [hs]
      simpa [sectionContrib] using this



/-- The symbol-filing fold inside `mergeOneSection`. -/


theorem symFold_preserve (fn sname : String) (off : Nat) (k : String) :
    ∀ (os : List (String × Symbol)) (g : List (String × Symbol)),
      (∀ q ∈ os, q.2.sect = sname → symKey fn q.1 q.2.is_global ≠ k) →
      alookup (symFold fn sname off g os) k = alookup g k := by
  intro os
  induction os with
  | nil => intro g _; rfl
  | cons q t ih =>
    intro g hk
    simp only [symFold, List.foldl_cons]
    rw [show (t.foldl _ _) = symFold fn sname off
      (if q.2.sect = sname then dictSet g (symKey fn q.1 q.2.is_global)
        ⟨q.1, q.2.value + off, sname, q.2.is_global, none⟩ else g) t from rfl]
    rw [ih _ (fun r hr => hk r (List.mem_cons_of_mem _ hr))]
    by_cases hq : q.2.sect = sname
    · rw [if_pos hq, alookup_dictSet_ne _ _ _ _
        (fun hh => hk q (List.mem_cons_self _ _) hq hh.symm)]
    · rw [if_neg hq]


theorem symFold_insert (fn sname : String) (off : Nat) (nm : String) (sym : Symbol)
    (hsect : sym.sect = sname) :
    ∀ (os : List (String × Symbol)) (g : List (String × Symbol)),
      (nm, sym) ∈ os →
      (∀ q ∈ os, symKey fn q.1 q.2.is_global = symKey fn nm sym.is_global → q = (nm, sym)) →
      alookup (symFold fn sname off g os) (symKey fn nm sym.is_global) =
        some ⟨nm, sym.value + off, sname, sym.is_global, none⟩ := by
  intro os
  induction os with
  | nil => intro g hm; exact absurd hm (List.not_mem_nil _)
  | cons q t ih =>
    intro g hm hk
    simp only [symFold, List.foldl_cons]
    rw [show (t.foldl _ _) = symFold fn sname off
      (if q.2.sect = sname then dictSet g (symKey fn q.1 q.2.is_global)
        ⟨q.1, q.2.value + off, sname, q.2.is_global, none⟩ else g) t from rfl]
    by_cases hr : (nm, sym) ∈ t
    · exact ih _ hr (fun r hrr => hk r (List.mem_cons_of_mem _ hrr))
    · have hq : q = (nm, sym) := by
        rcases List.mem_cons.mp hm with h | h
        · exact h.symm
        · exact absurd h hr
      subst hq
      rw [symFold_preserve fn sname off _ t _ ?_]
      · rw [if_pos hsect]
        exact alookup_dictSet_self _ _ _
      · intro r hrr _ hkey
        exact hr (hk r (List.mem_cons_of_mem _ hrr) hkey ▸ hrr)


theorem mergeOneSection_globals_eq (fn : String) (os : List (String × Symbol))
    (acc : LState × List Reloc) (sname : String) (sdata : List Nat)
    (d : List Nat) (b : Nat) (h : alookup acc.1.sections sname = some (Sect.mk d b)) :
    ((mergeOneSection fn os acc (sname, sdata)).1).globals =
      symFold fn sname d.length acc.1.globals os := by
  simp only [mergeOneSection, h, Option.isSome_some, if_pos, Option.getD_some]
  rfl


theorem mergeOneSection_globals_preserve (fn : String) (os : List (String × Symbol))
    (acc : LState × List Reloc) (sname : String) (sdata : List Nat) (k : String)
    (hk : ∀ q ∈ os, q.2.sect = sname → symKey fn q.1 q.2.is_global ≠ k) :
    alookup ((mergeOneSection fn os acc (sname, sdata)).1).globals k =
      alookup acc.1.globals k := by
  simp only [mergeOneSection]
  exact symFold_preserve fn sname _ k os acc.1.globals hk


theorem foldMerge_globals_preserve (fn : String) (os : List (String × Symbol)) (k : String) :
    ∀ (secs : List (String × List Nat)) (acc : LState × List Reloc),
      (∀ p ∈ secs, ∀ q ∈ os, q.2.sect = p.1 → symKey fn q.1 q.2.is_global ≠ k) →
      alookup ((secs.foldl (mergeOneSection fn os) acc).1).globals k =
        alookup acc.1.globals k := by
  intro secs
  induction secs with
  | nil => intro acc _; rfl
  | cons p t ih =>
    intro acc hk
    obtain ⟨s1, d1⟩ := p
    rw [List.foldl_cons, ih _ (fun r hr => hk r (List.mem_cons_of_mem _ hr))]
    exact mergeOneSection_globals_preserve fn os acc s1 d1 k
      (hk (s1, d1) (List.mem_cons_self _ _))


theorem foldMerge_globals_insert (fn : String) (os : List (String × Symbol)) (n : String)
    (nm : String) (sym : Symbol) (hsect : sym.sect = n) (hmem : (nm, sym) ∈ os)
    (hk : ∀ q ∈ os, symKey fn q.1 q.2.is_global = symKey fn nm sym.is_global → q = (nm, sym)) :
    ∀ (secs : List (String × List Nat)) (acc : LState × List Reloc) (dn d : List Nat) (b : Nat),
      (secs.map Prod.fst).Nodup → (n, dn) ∈ secs →
      alookup acc.1.sections n = some (Sect.mk d b) →
      alookup ((secs.foldl (mergeOneSection fn os) acc).1).globals
          (symKey fn nm sym.is_global) =
        some ⟨nm, sym.value + d.length, n, sym.is_global, none⟩ := by
  intro secs
  induction secs with
  | nil => intro acc dn d b _ hm _; exact absurd hm (List.not_mem_nil _)
  | cons p t ih =>
    intro acc dn d b hnodup hmem2 hsec
    obtain ⟨s1, d1⟩ := p
    simp only [List.map_cons, List.nodup_cons] at hnodup
    rw [List.foldl_cons]
    by_cases hs : s1 = n
    · subst hs
      have hrest : ∀ q ∈ t, q.1 ≠ s1 := by
        intro q hq heq
        exact hnodup.1 (heq ▸ List.mem_map_of_mem Prod.fst hq)
      rw [foldMerge_globals_preserve fn os _ t _ ?_]
      · rw [mergeOneSection_globals_eq fn os acc s1 d1 d b hsec]
        exact symFold_insert fn s1 d.length nm sym hsect os acc.1.globals hmem hk
      · intro p hp q hq hqs hkey
        have hq2 : q = (nm, sym) := hk q hq hkey
        apply hrest p hp
        rw [← hqs, hq2, hsect]
    · have hmem3 : (n, dn) ∈ t := by
        rcases List.mem_cons.mp hmem2 with h | h
        · exact absurd (congrArg Prod.fst h).symm hs
        · exact h
      have hsec2 : alookup ((mergeOneSection fn os acc (s1, d1)).1).sections n =
          some (Sect.mk d b) :=
        (mergeOneSection_sections_ne fn os acc s1 d1 n (fun hh => hs hh.symm)).trans hsec
      exact ih _ dn d b hnodup.2 hmem3 hsec2


theorem assignStep_ne (secs : List (String × Sect)) (p : String × Nat) (n : String)
    (h : n ≠ p.1) : alookup (assignStep secs p) n = alookup secs n := by
  unfold assignStep
  cases hm : alookup secs p.1 with
  | none => rfl
  | some s => exact alookup_dictSet_ne _ _ _ _ h


theorem assignFold_preserve (n : String) :
    ∀ (layout : List (String × Nat)) (secs : List (String × Sect)),
      (∀ p ∈ layout, p.1 ≠ n) →
      alookup (layout.foldl assignStep secs) n = alookup secs n := by
  intro layout
  induction layout with
  | nil => intro secs _; rfl
  | cons p t ih =>
    intro secs hne
    rw [List.foldl_cons, ih _ (fun q hq => hne q (List.mem_cons_of_mem _ hq))]
    exact assignStep_ne secs p n (fun hh => hne p (List.mem_cons_self _ _) hh.symm)


theorem assignFold_set (n : String) (base : Nat) :
    ∀ (layout : List (String × Nat)) (secs : List (String × Sect)) (d : List Nat) (b : Nat),
      (layout.map Prod.fst).Nodup → (n, base) ∈ layout →
      alookup secs n = some (Sect.mk d b) →
      alookup (layout.foldl assignStep secs) n = some (Sect.mk d base) := by
  intro layout
  induction layout with
  | nil => intro secs d b _ hm _; exact absurd hm (List.not_mem_nil _)
  | cons p t ih =>
    intro secs d b hnodup hm hsec
    obtain ⟨k1, b1⟩ := p
    simp only [List.map_cons, List.nodup_cons] at hnodup
    rw [List.foldl_cons]
    by_cases hk : k1 = n
    · subst hk
      have hb1 : b1 = base := by
        rcases List.mem_cons.mp hm with h | h
        · exact (Prod.mk.injEq _ _ _ _ ▸ h.symm).2
        · exact absurd (List.mem_map_of_mem Prod.fst h) hnodup.1
      subst hb1
      have hstep : alookup (assignStep secs (k1, b1)) k1 = some (Sect.mk d b1) := by
        unfold assignStep
        simp only [hsec]
        exact alookup_dictSet_self _ _ _
      rw [assignFold_preserve k1 t _ ?_, hstep]
      intro q hq heq
      exact hnodup.1 (heq ▸ List.mem_map_of_mem Prod.fst hq)
    · have hm2 : (n, base) ∈ t := by
        rcases List.mem_cons.mp hm with h | h
        · exact absurd (congrArg Prod.fst h).symm hk
        · exact h
      exact ih _ d b hnodup.2 hm2 ((assignStep_ne secs (k1, b1) n (fun hh => hk hh.symm)).trans hsec)


theorem alookup_map_resolve (secs : List (String × Sect)) :
    ∀ (l : List (String × Symbol)) (k : String),
      alookup (l.map (fun p => match alookup secs p.2.sect with
        | some s => (p.1, { p.2 with resolved_addr := some (s.base_addr + p.2.value) })
        | none => p)) k =
      (alookup l k).map (fun sy => match alookup secs sy.sect with
        | some s => { sy with resolved_addr := some (s.base_addr + sy.value) }
        | none => sy) := by
  intro l
  induction l with
  | nil => intro k; rfl
  | cons p t ih =>
    intro k
    obtain ⟨p1, p2⟩ := p
    simp only [List.map_cons]
    cases hm : alookup secs p2.sect with
    | some s =>
      simp only [hm, alookup]
      by_cases hk : p1 = k
      · rw [if_pos hk, if_pos hk]
        simp [hm]
      · rw [if_neg hk, if_neg hk]
        exact ih k
    | none =>
      simp only [hm, alookup]
      by_cases hk : p1 = k
      · rw [if_pos hk, if_pos hk]
        simp [hm]
      · rw [if_neg hk, if_neg hk]
        exact ih k


/-! ## Claim theorems -/

/-- Claim C1 (code bug): the spec expects every data-processing immediate to set the
I bit (bit 25) and to land in the low 12 bits, with `MOV R0, #5` at address 0 encoding
to 0xE3A00005 and `CMP R4, #1` to 0xE3540001 (S forced).  The source never sets bit 25
in `encode_data_processing`, so the assembler emits 0xE1A00005 and 0xE1540001 instead:
the S bit of CMP is forced and the immediate does sit in the low 12 bits, but the I bit
of both words is clear, so the claimed words are not produced. -/
theorem c1_immediate_encoding_missing_I_bit :
    assemble_line [] ("MOV R0, #5") 0 = (some 0xE1A00005, []) ∧
    assemble_line [] ("CMP R4, #1") 0 = (some 0xE1540001, []) ∧
    Nat.testBit 0xE1A00005 25 = false ∧ Nat.testBit 0xE1540001 25 = false ∧
    (0xE1A00005 : Nat) ≠ 0xE3A00005 ∧ (0xE1540001 : Nat) ≠ 0xE3540001 :=
  ⟨rfl, rfl, by decide, by decide, by decide, by decide⟩


/-- Claim C2 (code bug): the round-trip law fails at the supported form `MOV R0, #20`.
Assembling gives 0xE1A00014 (I bit missing), the disassembler therefore decodes the
operand as a register, printing `MOV R0, R4`, and re-assembling that line yields
0xE1A00004, a different word: bits 4..11 of the original encoding are lost. -/
theorem c2_roundtrip_failure :
    assemble_line [] ("MOV R0, #20") 0 = (some 0xE1A00014, []) ∧
    disassemble_instruction [] 0xE1A00014 0 = ("MOV R0, R4") ∧
    assemble_line [] ("MOV R0, R4") 0 = (some 0xE1A00004, []) ∧
    (0xE1A00004 : Nat) ≠ 0xE1A00014 :=
  ⟨rfl, rfl, rfl, by decide⟩


/-- Claim C3 (code bug): the spec expects `LDR R0, [R1, #8]` to encode with offset
field 8, i.e. 0xE5910008.  `assemble_line` first splits the whole line on commas and
whitespace, so the comma inside the brackets is gone before `assemble_load_store`
re-splits on commas; the `#8` ends up inside the register token, the offset parse
branch is unreachable, and the emitted word is 0xE5910000 with offset field 0. -/
theorem c3_load_store_offset_dropped :
    assemble_line [] ("LDR R0, [R1, #8]") 0 = (some 0xE5910000, []) ∧
    (0xE5910000 : Nat) &&& 0xFFF = 0 ∧ (0xE5910000 : Nat) ≠ 0xE5910008 :=
  ⟨rfl, by decide, by decide⟩


/-- Claim C4 (code bug): mnemonic decomposition should recover `TEQ` as the TEQ
operation with condition AL and `MOVS` as MOV with AL and the S flag.  The condition
scan of `parse_condition` matches the trailing `EQ` of `TEQ` (base `T`, condition EQ)
and the trailing `VS` of `MOVS` (base `MO`, condition VS), so both lines are rejected
as unknown instructions and assemble to a zero word. -/
theorem c4_mnemonic_decomposition_misparsed :
    parse_condition ("TEQ") = (("T"), 0) ∧
    parse_condition ("MOVS") = (("MO"), 6) ∧
    assemble_line [] ("TEQ R0, R1") 0 = (some 0, ["Unknown instruction: TEQ"]) ∧
    assemble_line [] ("MOVS R1, R2") 0 = (some 0, ["Unknown instruction: MOVS"]) :=
  ⟨rfl, rfl, rfl, rfl⟩


/-- Claim C5 (code bug): for `loop: ADD R0,R0,#1` followed by `B loop`, the assembler
does emit 0xEAFFFFFD as the second word (offset -3 words), but the target the
disassembler recovers is not T = 0: `disasm_branch_target` adds the unsigned 32-bit
sign-extension pattern to `addr + 8` on unbounded integers without wrapping modulo
2^32, giving 4 + 8 + (0xFFFFFFFD << 2) = 0x400000000 for every backward branch. -/
theorem c5_branch_decode_target_not_wrapped :
    assemble [("loop: ADD R0,R0,#1"), ("B loop")] = Except.ok ([0xE0800001, 0xEAFFFFFD], []) ∧
    disasm_branch_target 0xEAFFFFFD 4 = 0x400000000 ∧ (0x400000000 : Nat) ≠ 0 :=
  ⟨rfl, rfl, by decide⟩


/-- Claim C6 counterexample: assembling `MOV R0, #4096` reports no error at all (the
error list is empty, so no immediate_overflow is recorded) and the emitted word
0xE1A01000 has bit 12 set, corrupting the Rd field above bit 11 (Rd reads back as 1). -/
theorem c6_counterexample_no_overflow_error :
    assemble_line [] ("MOV R0, #4096") 0 = (some 0xE1A01000, []) ∧
    Nat.testBit 0xE1A01000 12 = true ∧ (0xE1A01000 : Nat) >>> 12 &&& 0xF = 1 :=
  ⟨rfl, by decide, by decide⟩


/-- Claim C6 amended: the assembler performs no range check on data-processing
immediates: any `#`-literal immediate is accepted without error and OR-ed unmasked
into the instruction word, so values of 4096 and above corrupt the fields above
bit 11 instead of reporting immediate_overflow. -/
theorem c6_immediate_placed_unmasked (s : String) (imm : Nat)
    (hs : pyStartsWith s ("#") = true) (hp : parse_immediate s = Except.ok imm) :
    assemble_data_processing ("MOV") [("R0"), s] 14 0 = Except.ok (0xE1A00000 ||| imm) := by
  have h2 : parseOperand2 [("R0"), s] 1 = Except.ok imm := by
    show (if (pyStartsWith s ("#") || pyIsdigitStr s) = true then parse_immediate s
      else parse_register s) = Except.ok imm
    rw [hs, Bool.true_or, if_pos rfl]
    exact hp
  simp only [assemble_data_processing, h2]
  rfl


/-- Witness for the amended claim C6 at the concrete input `MOV R0, #4096`. -/
theorem c6_immediate_placed_unmasked_witness :
    pyStartsWith ("#4096") ("#") = true ∧ parse_immediate ("#4096") = Except.ok 4096 ∧
    assemble_data_processing ("MOV") [("R0"), ("#4096")] 14 0 =
      Except.ok (0xE1A00000 ||| 4096) :=
  ⟨rfl, rfl, c6_immediate_placed_unmasked ("#4096") 4096 rfl rfl⟩


/-- Claim C7 counterexample: a two-line source with a duplicate label makes `assemble`
abort with the uncaught duplicate-label error; no machine code is produced for any
line, refuting that pass 1 and pass 2 still complete and words are still emitted. -/
theorem c7_counterexample_duplicate_label_halts :
    assemble [("x: MOV R0, R1"), ("x: MOV R0, R2")] = Except.error ("Duplicate label: x") := rfl


/-- Claim C7 amended: a duplicate label raises an uncaught `Duplicate label` error in
pass 1, aborting assembly: whatever lines follow, no output words are produced. -/
theorem c7_duplicate_label_aborts (more : List String) :
    assemble (("x: MOV R0, R1") :: ("x: MOV R0, R2") :: more) =
      Except.error ("Duplicate label: x") := by
  rfl


/-- Witness for the amended claim C7 with no trailing lines. -/
theorem c7_duplicate_label_aborts_witness :
    assemble [("x: MOV R0, R1"), ("x: MOV R0, R2")] = Except.error ("Duplicate label: x") :=
  c7_duplicate_label_aborts []


/-- Claim C8 (confirmed): for two objects A and B linked in that order (section names
unique per object, as Python dicts guarantee), the merged `.text` length is the sum of
the two `.text` lengths, and every symbol of B defined in `.text` (whose table key is
not shadowed by another B symbol) is filed with value `sym.value + |A.text|` and
resolved to `text.base + |A.text| + sym.value` during address assignment. -/
theorem c8_merge_additivity (A B : ObjFile) (layout : List (String × Nat)) (tbase : Nat)
    (nm : String) (sym : Symbol) (dB : List Nat)
    (hA : (A.sections.map Prod.fst).Nodup)
    (hB : (B.sections.map Prod.fst).Nodup)
    (hBtext : (".text", dB) ∈ B.sections)
    (hmem : (nm, sym) ∈ B.symbols)
    (hsect : sym.sect = ".text")
    (hkey : ∀ q ∈ B.symbols, symKey B.filename q.1 q.2.is_global =
      symKey B.filename nm sym.is_global → q = (nm, sym))
    (hLN : (layout.map Prod.fst).Nodup)
    (hLT : (".text", tbase) ∈ layout) :
    ((alookup (merge_sections [A, B]).sections (".text")).getD (Sect.mk [] 0)).data.length =
      ((alookup A.sections (".text")).getD []).length +
        ((alookup B.sections (".text")).getD []).length ∧
    alookup (assign_addresses layout (merge_sections [A, B])).globals
        (symKey B.filename nm sym.is_global) =
      some (Symbol.mk nm (sym.value + ((alookup A.sections (".text")).getD []).length) (".text")
        sym.is_global
        (some (tbase + ((alookup A.sections (".text")).getD []).length + sym.value))) := by
  have hInit : alookup initLState.sections (".text") = some (Sect.mk [] 0) := rfl
  have hMA : alookup (mergeObj initLState A).sections (".text") =
      some (Sect.mk ((alookup A.sections (".text")).getD []) 0) := by
    rw [show (mergeObj initLState A).sections = ((A.sections.foldl
      (mergeOneSection A.filename A.symbols) (initLState, A.relocations)).1).sections from rfl]
    rw [foldMerge_sections_same A.filename A.symbols (".text") A.sections
      (initLState, A.relocations) [] 0 hInit, sectionContrib_nodup A.sections (".text") hA]
    simp
  have hMB : alookup (merge_sections [A, B]).sections (".text") =
      some (Sect.mk (((alookup A.sections (".text")).getD []) ++
        ((alookup B.sections (".text")).getD [])) 0) := by
    rw [show (merge_sections [A, B]).sections = ((B.sections.foldl
      (mergeOneSection B.filename B.symbols) (mergeObj initLState A, B.relocations)).1).sections
      from rfl]
    rw [foldMerge_sections_same B.filename B.symbols (".text") B.sections
      ((mergeObj initLState A), B.relocations) ((alookup A.sections (".text")).getD []) 0 hMA,
      sectionContrib_nodup B.sections (".text") hB]
  refine ⟨?_, ?_⟩
  · rw [hMB]
    simp
  · have hG : alookup (merge_sections [A, B]).globals (symKey B.filename nm sym.is_global) =
        some (Symbol.mk nm (sym.value + ((alookup A.sections (".text")).getD []).length)
          (".text") sym.is_global none) := by
      rw [show (merge_sections [A, B]).globals = ((B.sections.foldl
        (mergeOneSection B.filename B.symbols) (mergeObj initLState A, B.relocations)).1).globals
        from rfl]
      exact foldMerge_globals_insert B.filename B.symbols (".text") nm sym hsect hmem hkey
        B.sections ((mergeObj initLState A), B.relocations) dB
        ((alookup A.sections (".text")).getD []) 0 hB hBtext hMA
    have hSecF : alookup (layout.foldl assignStep (merge_sections [A, B]).sections) (".text") =
        some (Sect.mk (((alookup A.sections (".text")).getD []) ++
          ((alookup B.sections (".text")).getD [])) tbase) :=
      assignFold_set (".text") tbase layout _ _ 0 hLN hLT hMB
    rw [show (assign_addresses layout (merge_sections [A, B])).globals =
      ((merge_sections [A, B]).globals.map (fun p =>
        match alookup (layout.foldl assignStep (merge_sections [A, B]).sections) p.2.sect with
        | some s => (p.1, { p.2 with resolved_addr := some (s.base_addr + p.2.value) })
        | none => p)) from rfl]
    rw [alookup_map_resolve _ _ _, hG]
    simp only [Option.map_some', hSecF]
    simp only [Option.some.injEq, Symbol.mk.injEq, true_and]
    omega


/-- Witness for claim C8 on the concrete two-object scenario. -/
theorem c8_merge_additivity_witness :
    ((c8ObjA.sections.map Prod.fst).Nodup) ∧
    ((c8ObjB.sections.map Prod.fst).Nodup) ∧
    ((alookup (merge_sections [c8ObjA, c8ObjB]).sections (".text")).getD
      (Sect.mk [] 0)).data.length = 4 + 4 ∧
    alookup (assign_addresses defaultLayout (merge_sections [c8ObjA, c8ObjB])).globals
        (symKey ("b.o") ("main") true) =
      some (Symbol.mk ("main") (0 + 4) (".text") true (some (0 + 4 + 0))) := by
  refine ⟨by decide, by decide, ?_, ?_⟩
  all_goals
    have h := c8_merge_additivity c8ObjA c8ObjB defaultLayout 0 ("main")
      (Symbol.mk ("main") 0 (".text") true none) [5, 6, 7, 8]
      (by decide) (by decide) (by decide) (by decide) rfl (by decide) (by decide) (by decide)
  · simpa using h.1
  · simpa using h.2


/-- Claim C9 (confirmed): for a rel24 relocation whose symbol resolves with a resolved
address, the linker rewrites bits 0..23 of the word at (section, offset) to
`((target - (section.base + offset) - 8) >> 2) & 0xFFFFFF` (floor shift and mask, as
Python computes them), preserves bits 24..31 of that word, leaves every other byte of
the section unchanged, and leaves every other section untouched. -/
theorem c9_rel24_patch (st : LState) (fn : String) (r : Reloc) (sym : Symbol) (sct : Sect)
    (target : Nat)
    (hty : r.rel_type = "rel24")
    (hsym : resolveSym st fn r.symbol = some sym)
    (hres : sym.resolved_addr = some target)
    (hsec : alookup st.sections r.sect = some sct)
    (hlen : r.offset + 4 ≤ sct.data.length)
    (hbytes : ∀ x ∈ sct.data, x < 256) :
    ∃ d' : List Nat,
      alookup (applyOneReloc st (fn, r)).sections r.sect = some (Sect.mk d' sct.base_addr) ∧
      read_word d' r.offset &&& 0xFFFFFF =
        ((((target : Int) - ((sct.base_addr + r.offset : Nat) : Int) - 8).fdiv 4).emod (2 ^ 24)).toNat ∧
      read_word d' r.offset >>> 24 = read_word sct.data r.offset >>> 24 ∧
      (∀ i : Nat, i < r.offset ∨ r.offset + 4 ≤ i → d'.get? i = sct.data.get? i) ∧
      (∀ s : String, s ≠ r.sect →
        alookup (applyOneReloc st (fn, r)).sections s = alookup st.sections s) := by
  have happ := applyOneReloc_rel24_sections st fn r sym sct target hty hsym hres hsec
  have hmask : ((((target : Int) - ((sct.base_addr + r.offset : Nat) : Int) - 8).fdiv 4).emod
      (2 ^ 24)).toNat < 2 ^ 24 := emod_toNat_lt _
  have hinstr : read_word sct.data r.offset < 2 ^ 32 := read_word_lt _ _ hbytes
  have hinstr2 : (read_word sct.data r.offset &&& 0xFF000000) |||
      ((((target : Int) - ((sct.base_addr + r.offset : Nat) : Int) - 8).fdiv 4).emod
        (2 ^ 24)).toNat < 2 ^ 32 := by
    apply Nat.or_lt_two_pow
    · calc read_word sct.data r.offset &&& 0xFF000000 ≤ 0xFF000000 := Nat.and_le_right
        _ < 2 ^ 32 := by norm_num
    · calc ((((target : Int) - ((sct.base_addr + r.offset : Nat) : Int) - 8).fdiv 4).emod
          (2 ^ 24)).toNat < 2 ^ 24 := hmask
        _ ≤ 2 ^ 32 := by norm_num
  refine ⟨splice sct.data r.offset (word_bytes ((read_word sct.data r.offset &&& 0xFF000000) |||
    ((((target : Int) - ((sct.base_addr + r.offset : Nat) : Int) - 8).fdiv 4).emod
      (2 ^ 24)).toNat)), ?_, ?_, ?_, ?_, ?_⟩
  · rw [happ]
    exact alookup_dictSet_self _ _ _
  · rw [read_word_splice _ _ _ hlen hinstr2]
    exact lor_hi_and_mask _ _ hmask
  · rw [read_word_splice _ _ _ hlen hinstr2]
    exact lor_hi_shift _ _ hmask hinstr
  · intro i hi
    cases hi with
    | inl h => exact splice_get?_lt _ _ _ _ h (by omega)
    | inr h => exact splice_get?_ge _ _ _ _ (by rw [show (word_bytes _).length = 4 from rfl]; omega) (by omega)
  · intro s hs
    rw [happ]
    exact alookup_dictSet_ne _ _ _ _ hs


/-- Witness for claim C9 on the two-object spec scenario: global `main` merges to
value 8, the relocation sits at `.text` offset 0 under the default layout, and the
low 24 bits of the patched word are `((8 - 0 - 8) >> 2) & 0xFFFFFF = 0` while the high
byte 0xEB survives. -/
theorem c9_rel24_patch_witness :
    c9Reloc.rel_type = ("rel24") ∧
    resolveSym c9State ("a.o") c9Reloc.symbol =
      some (Symbol.mk ("main") 8 (".text") true (some 8)) ∧
    alookup c9State.sections c9Reloc.sect =
      some (Sect.mk [0, 0, 0, 235, 0, 0, 0, 0, 1, 2, 3, 4, 5, 6, 7, 8] 0) ∧
    (∃ d' : List Nat,
      alookup (applyOneReloc c9State (("a.o"), c9Reloc)).sections c9Reloc.sect =
        some (Sect.mk d' 0) ∧
      read_word d' c9Reloc.offset &&& 0xFFFFFF =
        ((((8 : Int) - (((0 : Nat) + c9Reloc.offset : Nat) : Int) - 8).fdiv 4).emod
          (2 ^ 24)).toNat ∧
      read_word d' c9Reloc.offset >>> 24 =
        read_word [0, 0, 0, 235, 0, 0, 0, 0, 1, 2, 3, 4, 5, 6, 7, 8] c9Reloc.offset >>> 24 ∧
      (∀ i : Nat, i < c9Reloc.offset ∨ c9Reloc.offset + 4 ≤ i →
        d'.get? i = [0, 0, 0, 235, 0, 0, 0, 0, 1, 2, 3, 4, 5, 6, 7, 8].get? i) ∧
      (∀ s : String, s ≠ c9Reloc.sect →
        alookup (applyOneReloc c9State (("a.o"), c9Reloc)).sections s =
          alookup c9State.sections s)) ∧
    ((((8 : Int) - (((0 : Nat) + c9Reloc.offset : Nat) : Int) - 8).fdiv 4).emod (2 ^ 24)).toNat = 0 ∧
    read_word ((alookup (link_process defaultLayout [c9ObjA, c9ObjB]).sections (".text")).getD
      (Sect.mk [] 0)).data 0 &&& 0xFFFFFF = 0 :=
  ⟨rfl, by decide, by decide,
    c9_rel24_patch c9State ("a.o") c9Reloc (Symbol.mk ("main") 8 (".text") true (some 8))
      (Sect.mk [0, 0, 0, 235, 0, 0, 0, 0, 1, 2, 3, 4, 5, 6, 7, 8] 0) 8 rfl (by decide) rfl
      (by decide) (by decide) (by decide),
    by decide, by decide⟩


/-- Claim C10 (confirmed): `parse_register` only requires the token to begin with `R`
followed by digits and ignores trailing characters (`R1X`, even lowercase `r1x`,
parses as register 1); every success is a register index at most 15, and it fails
exactly when the special-name table misses and either no leading R-digits prefix
matches or the parsed number exceeds 15. -/
theorem c10_parse_register_lenient :
    parse_register ("R1X") = Except.ok 1 ∧
    parse_register ("r1x") = Except.ok 1 ∧
    (∀ (s : String) (n : Nat), parse_register s = Except.ok n → n ≤ 15) ∧
    (∀ s : String, (∃ e, parse_register s = Except.error e) ↔
      (alookup regMap (pyUpper (pyStrip s)) = none ∧
        (rMatchDigits (pyUpper (pyStrip s)).data = none ∨
          15 < decVal ((rMatchDigits (pyUpper (pyStrip s)).data).getD [])))) := by
  refine ⟨rfl, rfl, ?_, ?_⟩
  · intro s n h
    simp only [parse_register] at h
    repeat' split at h
    · rename_i m hA
      simp only [Except.ok.injEq] at h
      subst h
      exact regMap_bound _ _ hA
    · rename_i ds hds hle
      simp only [Except.ok.injEq] at h
      omega
    · simp at h
    · simp at h
  · intro s
    constructor
    · rintro ⟨e, h⟩
      simp only [parse_register] at h
      repeat' split at h
      · simp at h
      · simp at h
      · rename_i hA x ds hds hgt
        exact ⟨hA, Or.inr (by rw [hds]; simpa using Nat.lt_of_not_le hgt)⟩
      · rename_i hA x hnone
        exact ⟨hA, Or.inl hnone⟩
    · rintro ⟨hA, hR⟩
      refine ⟨("Invalid register: " ++ pyUpper (pyStrip s)), ?_⟩
      simp only [parse_register]
      rw [hA]
      cases hM : rMatchDigits (pyUpper (pyStrip s)).data with
      | none => rfl
      | some ds =>
        rcases hR with hnone | hlt
        · rw [hM] at hnone; exact absurd hnone (by simp)
        · rw [hM] at hlt
          simp only [Option.getD_some] at hlt
          show (if decVal ds ≤ 15 then (Except.ok (decVal ds) : Except String Nat)
            else Except.error ("Invalid register: " ++ pyUpper (pyStrip s))) =
            Except.error ("Invalid register: " ++ pyUpper (pyStrip s))
          rw [if_neg (by omega)]


/-- Witness for claim C10: the success bound applied at `R1X` and the failure
characterization applied at `R16`. -/
theorem c10_parse_register_lenient_witness :
    (1 : Nat) ≤ 15 ∧ (∃ e, parse_register ("R16") = Except.error e) :=
  ⟨c10_parse_register_lenient.2.2.1 ("R1X") 1 rfl, (c10_parse_register_lenient.2.2.2 ("R16")).mpr (by decide)⟩


end ARM7
